import Mathlib

/-!
Verification development for the product/order API in `src/main.py`.

The Python program is shallowly embedded: JSON values become the inductive
type `JVal`, Python dicts become association lists, Python numbers (int and
float collapsed) become `Rat`, and operations that can raise an uncaught
Python exception return `Option`/`Except`.  The query pipeline of
`get_products` (filter, search, sort, paginate, project), the startup
loaders, and the order endpoints are translated stage by stage from the
source file.
-/

namespace ApiExposer

/-- A JSON-like Python value: `None`, booleans, numbers (Python `int` and
`float` collapsed into `Rat`), strings, lists, and dicts (as association
lists of string keys). -/
inductive JVal where
  | null : JVal
  | bool (b : Bool) : JVal
  | num (q : Rat) : JVal
  | str (s : String) : JVal
  | arr (xs : List JVal) : JVal
  | obj (fs : List (String × JVal)) : JVal

/-- A product record: a Python dict from string keys to arbitrary values
(`PRODUCTS` holds a list of these). -/
abbrev Product := List (String × JVal)

/-- `d.get(k)` on a Python dict: `none` when the key is absent, otherwise
the first value stored under `k`. -/
def dictGet (d : Product) (k : String) : Option JVal :=
  List.lookup k d

/-- `d.get(k, dflt)` on a Python dict. -/
def dictGetD (d : Product) (k : String) (dflt : JVal) : JVal :=
  (dictGet d k).getD dflt

/-- Python truthiness (`bool(v)`) of a value. -/
def jTruthy : JVal → Bool
  | .null => false
  | .bool b => b
  | .num q => q != 0
  | .str s => s != ""
  | .arr xs => !xs.isEmpty
  | .obj fs => !fs.isEmpty

/-- Python `str.lower()`, modelled by the ASCII case map (`Char.toLower`
maps only basic latin letters, exactly Python's behaviour on ASCII text). -/
def pyStrLower (s : String) : String :=
  String.mk (s.data.map Char.toLower)

/-- Python `str.upper()`, modelled by the ASCII case map. -/
def pyStrUpper (s : String) : String :=
  String.mk (s.data.map Char.toUpper)

/-- Python `needle in hay` on strings: `needle` occurs as a contiguous
substring of `hay` at some offset. -/
def pyIn (needle hay : String) : Bool :=
  (List.range (hay.data.length + 1)).any fun i =>
    (hay.data.drop i).take needle.data.length == needle.data

/-- Python `str(v)`, used by `get_products` to stringify tags and sort
keys.  Scalars follow Python exactly; numeric and container renderings are
rendered via `Rat`'s printer and `repr`-less element display, which no
verified claim depends on. -/
def pyStr : JVal → String
  | .null => "None"
  | .bool b => bif b then "True" else "False"
  | .num q => toString q
  | .str s => s
  | .arr xs => "[" ++ String.intercalate (", ") (xs.attach.map fun t => pyStr t.1) ++ "]"
  | .obj fs => "\x7b" ++ String.intercalate (", ") (fs.attach.map fun t => t.1.1 ++ (": ") ++ pyStr t.1.2) ++ "\x7d"
decreasing_by
  all_goals
    obtain ⟨x, hx⟩ := t
    have := List.sizeOf_lt_of_mem hx
    first
    | (simp_all; omega)
    | (obtain ⟨k, v⟩ := x; simp_all; omega)

/-- The helper `_matches(value, query)` (src/main.py lines 12-15): `False`
when the value is Python `None` (key absent or JSON null), otherwise
`query.lower() in value.lower()`.  Calling `.lower()` on a non-string value
raises `AttributeError`, modelled as `none`. -/
def matchesQ (value : Option JVal) (query : String) : Option Bool :=
  match value with
  | none => some false
  | some .null => some false
  | some (.str s) => some (pyIn (pyStrLower query) (pyStrLower s))
  | some _ => none

/-- Python `v >= m` for `m` a float: numbers compare numerically, `bool`
counts as `0`/`1` (it is an `int` subtype), and any other value raises
`TypeError`, modelled as `none`. -/
def pyGeNum (v : JVal) (m : Rat) : Option Bool :=
  match v with
  | .num q => some (decide (m ≤ q))
  | .bool b => some (decide (m ≤ (bif b then 1 else 0)))
  | _ => none

/-- Python `v <= m` for `m` a float; same typing rules as `pyGeNum`. -/
def pyLeNum (v : JVal) (m : Rat) : Option Bool :=
  match v with
  | .num q => some (decide (q ≤ m))
  | .bool b => some (decide ((bif b then (1 : Rat) else 0) ≤ m))
  | _ => none

/-- `(item.get(k) or "").lower()` from the search stage: a falsy value
(including an absent key) yields `""`; a truthy string is lowercased; a
truthy non-string raises `AttributeError` (`none`). -/
def orEmptyLower (value : Option JVal) : Option String :=
  let w := value.getD .null
  if jTruthy w then
    match w with
    | .str s => some (pyStrLower s)
    | _ => none
  else
    some ""

/-- `for tag in (item.get("tags") or [])`: a falsy value iterates as the
empty list; lists iterate their elements, strings their characters, dicts
their keys; a truthy number or boolean raises `TypeError` (`none`). -/
def iterOrEmpty (value : Option JVal) : Option (List JVal) :=
  let w := value.getD .null
  if jTruthy w then
    match w with
    | .arr xs => some xs
    | .str s => some (s.data.map fun c => .str (String.mk [c]))
    | .obj fs => some (fs.map fun kv => .str kv.1)
    | _ => none
  else
    some []

/-- `any(search_lower in str(tag).lower() for tag in item.get("tags") or [])`. -/
def tagsAny (searchLower : String) (value : Option JVal) : Option Bool :=
  (iterOrEmpty value).map fun tags =>
    tags.any fun t => pyIn searchLower (pyStrLower (pyStr t))

/-- The search predicate of src/main.py lines 160-168, with Python's
short-circuit `or` (a later field is only evaluated - and can only raise -
when every earlier field failed to match). -/
def searchPred (searchLower : String) (item : Product) : Option Bool :=
  match orEmptyLower (dictGet item ("title")) with
  | none => none
  | some t =>
    if pyIn searchLower t then some true else
    match orEmptyLower (dictGet item ("description")) with
    | none => none
    | some d =>
      if pyIn searchLower d then some true else
      match orEmptyLower (dictGet item ("brand")) with
      | none => none
      | some b =>
        if pyIn searchLower b then some true else
        tagsAny searchLower (dictGet item ("tags"))

/-- A derived sort key (src/main.py `get_sort_key`): `float('inf')` /
`float('-inf')` for missing values, a number, or a lowercased string.
The infinities and numbers are mutually comparable floats; comparing any
of them against a string raises `TypeError`. -/
inductive SortKey where
  | negInf : SortKey
  | num (q : Rat) : SortKey
  | posInf : SortKey
  | str (s : String) : SortKey

/-- The key is a float (number or infinity). -/
def SortKey.isNumLike : SortKey → Bool
  | .str _ => false
  | _ => true

/-- The key is a string. -/
def SortKey.isStr : SortKey → Bool
  | .str _ => true
  | _ => false

/-- `get_sort_key(item)` from src/main.py lines 175-183: an absent or null
value maps to `+inf` when ascending and `-inf` when descending; `int`,
`float` and `bool` values are used numerically; anything else becomes
`str(value).lower()`. -/
def getSortKey (sortBy : String) (reverse : Bool) (item : Product) : SortKey :=
  match dictGet item sortBy with
  | none => bif reverse then .negInf else .posInf
  | some .null => bif reverse then .negInf else .posInf
  | some (.num q) => .num q
  | some (.bool b) => .num (bif b then 1 else 0)
  | some v => .str (pyStrLower (pyStr v))

/-- Total comparison on sort keys.  On two float-like keys and on two
string keys it is exactly Python's `<=`; a cross-kind comparison would
raise `TypeError` in Python and is given an arbitrary total value here
(the sort stage never consults it: mixed-kind key lists take the
`except TypeError` fallback). -/
def keyLe : SortKey → SortKey → Bool
  | .negInf, _ => true
  | .num _, .negInf => false
  | .num q, .num q' => decide (q ≤ q')
  | .num _, .posInf => true
  | .num _, .str _ => true
  | .posInf, .negInf => false
  | .posInf, .num _ => false
  | .posInf, .posInf => true
  | .posInf, .str _ => true
  | .str s, .str t => decide (s ≤ t)
  | .str _, _ => false

/-- The sort stage (src/main.py lines 170-188).  A falsy `sortBy` skips
sorting.  `sorted(..., key=get_sort_key, reverse=reverse)` is a stable
sort; with `reverse=True` it is the stable descending sort, i.e. a stable
merge sort under the flipped comparator.  When the derived keys mix
float-like and string keys, CPython's sort is guaranteed to compare two
such keys and raise `TypeError`, which the `except` clause turns into
"continue without sorting". -/
def sortStep (sortBy : Option String) (order : String) (l : List Product) : List Product :=
  match sortBy with
  | none => l
  | some f =>
    if f = "" then l
    else
      let reverse := pyStrLower order == "desc"
      let key := getSortKey f reverse
      if (l.map key).any SortKey.isNumLike && (l.map key).any SortKey.isStr then
        l
      else
        l.mergeSort fun a b =>
          bif reverse then keyLe (key b) (key a) else keyLe (key a) (key b)

/-- A Python list comprehension `[x for x in l if pred(x)]` whose predicate
may raise (`none`): items are tested left to right and the first raise
aborts the whole comprehension. -/
def filterOpt (pred : Product → Option Bool) : List Product → Option (List Product)
  | [] => some []
  | x :: xs =>
    match pred x with
    | none => none
    | some b =>
      match filterOpt pred xs with
      | none => none
      | some ys => some (bif b then x :: ys else ys)

/-- The query parameters of `GET /products` (src/main.py lines 87-100),
after FastAPI validation: `page ≥ 1`, `1 ≤ limit ≤ 100`, `order` matches
`^(asc|desc)$`, and every optional parameter is `none` when absent. -/
structure QueryParams where
  page : Nat := 1
  limit : Nat := 10
  search : Option String := none
  sortBy : Option String := none
  order : String := "asc"
  fields : Option String := none
  category : Option String := none
  brand : Option String := none
  minPrice : Option Rat := none
  maxPrice : Option Rat := none
  minRating : Option Rat := none
  availabilityStatus : Option String := none

/-- One truthiness-guarded `_matches` filter (the category, brand and
availabilityStatus filters of src/main.py lines 116-128 and 150-155 are
three instances of this shape). -/
def matchFilter (param : Option String) (field : String) (l : List Product) :
    Option (List Product) :=
  match param with
  | none => some l
  | some c =>
    if c = "" then some l
    else filterOpt (fun it => matchesQ (dictGet it field) c) l

/-- One presence-guarded numeric filter (`if p is not None:`), as in the
minPrice/maxPrice/minRating filters of src/main.py lines 130-148. -/
def numFilter (param : Option Rat) (pred : Product → Rat → Option Bool)
    (l : List Product) : Option (List Product) :=
  match param with
  | none => some l
  | some m => filterOpt (fun it => pred it m) l

/-- The truthiness-guarded search filter (src/main.py lines 157-168):
`search_lower = search.lower()` and a list comprehension over the search
predicate. -/
def searchFilter (param : Option String) (l : List Product) : Option (List Product) :=
  match param with
  | none => some l
  | some s =>
    if s = "" then some l
    else filterOpt (searchPred (pyStrLower s)) l

/-- The filter-and-search prefix of the pipeline (src/main.py lines
113-168), applied in source order: category, brand, minPrice, maxPrice,
minRating, availabilityStatus, then search.  `none` models an uncaught
Python exception (a 500, not a handled error). -/
def filterStage (p : QueryParams) (products : List Product) : Option (List Product) := do
  let fd := products
  let fd ← matchFilter p.category ("category") fd
  let fd ← matchFilter p.brand ("brand") fd
  let fd ← numFilter p.minPrice (fun it m => pyGeNum (dictGetD it ("price") (.num 0)) m) fd
  let fd ← numFilter p.maxPrice (fun it m => pyLeNum (dictGetD it ("price") (.num 0)) m) fd
  let fd ← numFilter p.minRating (fun it m => pyGeNum (dictGetD it ("rating") (.num 0)) m) fd
  let fd ← matchFilter p.availabilityStatus ("availabilityStatus") fd
  searchFilter p.search fd

/-- `total_pages` (src/main.py line 192): `math.ceil(total_items / limit)`
when there are items, else `0`.  For `limit > 0` the natural-number form
`(t + limit - 1) / limit` is exactly the ceiling. -/
def totalPagesOf (totalItems limit : Nat) : Nat :=
  if totalItems > 0 then (totalItems + limit - 1) / limit else 0

/-- The field-selection stage (src/main.py lines 199-205): when `fields`
is truthy, keep only the comma-separated, stripped field names in each
record. -/
def projStep (fields : Option String) (l : List Product) : List Product :=
  match fields with
  | none => l
  | some f =>
    if f = "" then l
    else
      let selected := (f.splitOn (",")).map String.trim
      l.map fun item => item.filter fun kv => selected.contains kv.1

/-- The outcome of a `/products` request that does not return normally:
the explicit `HTTPException(404)` of src/main.py lines 208-212, or an
uncaught Python exception from a filter predicate. -/
inductive PyErr where
  | http404 (detail : String) : PyErr
  | typeError : PyErr

/-- The JSON body built at src/main.py lines 215-221. -/
structure ProductsResponse where
  page : Nat
  limit : Nat
  totalItems : Nat
  totalPages : Nat
  data : List Product

/-- `get_products` (src/main.py lines 86-221): filter and search, sort,
paginate, project, then either the explicit 404 or the response body. -/
def get_products (p : QueryParams) (products : List Product) :
    Except PyErr ProductsResponse :=
  match filterStage p products with
  | none => .error .typeError
  | some fd =>
    let fd := sortStep p.sortBy p.order fd
    let totalItems := fd.length
    let totalPages := totalPagesOf totalItems p.limit
    let start := (p.page - 1) * p.limit
    let paginated := (fd.drop start).take p.limit
    let paginated := projStep p.fields paginated
    if paginated.isEmpty ∧ p.page > totalPages ∧ totalPages > 0 then
      .error (.http404 ((("Page ") ++ toString p.page) ++ (" not found. Total pages: ") ++ toString totalPages))
    else
      .ok { page := p.page, limit := p.limit, totalItems := totalItems,
            totalPages := totalPages, data := paginated }

/-- An order line item (src/main.py lines 266-269), after pydantic
validation: `quantity ≥ 1` (default 1), `price ≥ 0` when given. -/
structure OrderItem where
  productId : String
  quantity : Nat := 1
  price : Option Rat := none

/-- The order-creation payload (src/main.py lines 272-278), after
validation: `userId` required, everything else defaulted. -/
structure OrderCreate where
  userId : String
  items : List OrderItem := []
  totalAmount : Option Rat := none
  status : String := "pending"
  notes : Option String := none
  metadata : List (String × JVal) := []

/-- A stored order (src/main.py lines 281-283): the creation payload plus
the generated `id` and `createdAt`.  The UTC timestamp is abstracted to a
number (the process clock reading). -/
structure Order extends OrderCreate where
  id : String
  createdAt : Nat

/-- `create_order` (src/main.py lines 286-296) as a state transformer on
the in-memory `ORDERS` list: `uuid4()` and `datetime.utcnow()` enter as
the parameters `freshId` and `now`; the new order is appended at the end
(the wholesale disk write of `_save_orders` carries the same list and is
not modelled further).  Returns the created order and the new store. -/
def create_order (orders : List Order) (input : OrderCreate) (freshId : String)
    (now : Nat) : Order × List Order :=
  let newOrder : Order := { input with id := freshId, createdAt := now }
  (newOrder, orders ++ [newOrder])

/-- `list_orders` (src/main.py lines 299-302): the whole store in
insertion order. -/
def list_orders (orders : List Order) : List Order :=
  orders

/-- `get_orders_by_user` (src/main.py lines 305-313): the subsequence of
the store whose `userId` equals the path parameter, by Python `==` on
strings (case-sensitive). -/
def get_orders_by_user (orders : List Order) (userId : String) : List Order :=
  orders.filter fun o => o.userId == userId

/-- What the process finds when it opens and parses one of the two JSON
sources: the file may be missing, unreadable (`OSError`), unparseable
(`json.JSONDecodeError`), or parse to a value. -/
inductive LoadResult where
  | absent : LoadResult
  | unreadable : LoadResult
  | invalid : LoadResult
  | parsed (v : JVal) : LoadResult

/-- An exception escaping a loader and aborting startup. -/
inductive LoadErr where
  | ioError : LoadErr
  | decodeError : LoadErr
  | attributeError : LoadErr

/-- The catalog half of `load_products` (src/main.py lines 56-64): no
`try` anywhere, so a missing file, an unreadable file, or a parse failure
escapes and startup fails; on success `PRODUCTS = data.get("products", [])`
(calling `.get` on a non-dict document raises `AttributeError`). -/
def load_products (src : LoadResult) : Except LoadErr JVal :=
  match src with
  | .absent => .error .ioError
  | .unreadable => .error .ioError
  | .invalid => .error .decodeError
  | .parsed (.obj fs) => .ok (dictGetD fs ("products") (.arr []))
  | .parsed _ => .error .attributeError

/-- `_load_orders` (src/main.py lines 40-48): an absent file returns `[]`
before the `try`; `OSError` and `JSONDecodeError` are caught and return
`[]`; on a successful parse `data.get("orders", [])` is returned (so a
valid JSON document that is not a dict still raises `AttributeError`,
which is not in the `except` clause). -/
def load_orders (src : LoadResult) : Except LoadErr JVal :=
  match src with
  | .absent => .ok (.arr [])
  | .unreadable => .ok (.arr [])
  | .invalid => .ok (.arr [])
  | .parsed (.obj fs) => .ok (dictGetD fs ("orders") (.arr []))
  | .parsed _ => .error .attributeError

/-- The numeric reading of a record field used by the range filters:
an absent key reads as `0` (the `.get(k, 0)` default), numbers read as
themselves, booleans as `0`/`1`; a null or non-numeric value has no
numeric reading (comparing it would raise `TypeError`). -/
def numFieldVal (field : String) (item : Product) : Option Rat :=
  match dictGet item field with
  | none => some 0
  | some (.num q) => some q
  | some (.bool b) => some (bif b then 1 else 0)
  | some _ => none

/-- The numeric value a record contributes to sorting: present numbers and
booleans; `none` for an absent key, a null, or a non-numeric value. -/
def sortFieldNum (field : String) (item : Product) : Option Rat :=
  match dictGet item field with
  | some (.num q) => some q
  | some (.bool b) => some (bif b then 1 else 0)
  | _ => none

/-- The record's sort field is numeric, or missing (absent / null). -/
def numOrMissing (field : String) (item : Product) : Bool :=
  match dictGet item field with
  | none => true
  | some .null => true
  | some (.num _) => true
  | some (.bool _) => true
  | some _ => false

theorem filterOpt_eq_some (pred : Product → Option Bool) (l : List Product)
    (h : ∀ x ∈ l, (pred x).isSome) :
    filterOpt pred l = some (l.filter fun x => pred x == some true) := by
  induction l with
  | nil => rfl
  | cons x xs ih =>
    have hx : (pred x).isSome := h x (List.mem_cons_self x xs)
    obtain ⟨b, hb⟩ := Option.isSome_iff_exists.mp hx
    have hxs := ih fun y hy => h y (List.mem_cons_of_mem x hy)
    simp only [filterOpt, hb, hxs, List.filter_cons]
    cases b <;> simp

theorem filterOpt_isSome_of_eq_some {pred : Product → Option Bool}
    {l r : List Product} (h : filterOpt pred l = some r) :
    ∀ x ∈ l, (pred x).isSome := by
  induction l generalizing r with
  | nil => intro x hx; cases hx
  | cons x xs ih =>
    intro y hy
    simp only [filterOpt] at h
    cases hp : pred x with
    | none => rw [hp] at h; cases h
    | some b =>
      rw [hp] at h
      cases hrec : filterOpt pred xs with
      | none => rw [hrec] at h; cases h
      | some ys =>
        rcases List.mem_cons.mp hy with rfl | hy
        · simp [hp]
        · exact ih hrec y hy

theorem filterOpt_some_inv {pred : Product → Option Bool} {l r : List Product}
    (h : filterOpt pred l = some r) :
    r = l.filter fun x => pred x == some true := by
  have := filterOpt_eq_some pred l (filterOpt_isSome_of_eq_some h)
  rw [this] at h
  exact (Option.some_inj.mp h).symm

theorem sortStep_perm (sortBy : Option String) (order : String)
    (l : List Product) : (sortStep sortBy order l).Perm l := by
  unfold sortStep
  cases sortBy with
  | none => exact List.Perm.refl l
  | some f =>
    by_cases hf : f = ""
    · simp [hf]
    · simp only [hf, if_false]
      by_cases hmix : ((l.map (getSortKey f (pyStrLower order == "desc"))).any SortKey.isNumLike
          && (l.map (getSortKey f (pyStrLower order == "desc"))).any SortKey.isStr) = true
      · simp [hmix]
      · simp only [Bool.not_eq_true] at hmix
        simp [hmix, List.mergeSort_perm]

theorem sortStep_length (sortBy : Option String) (order : String)
    (l : List Product) : (sortStep sortBy order l).length = l.length :=
  (sortStep_perm sortBy order l).length_eq

theorem sortStep_mem {sortBy : Option String} {order : String}
    {l : List Product} {x : Product} : x ∈ sortStep sortBy order l ↔ x ∈ l :=
  (sortStep_perm sortBy order l).mem_iff

theorem sortStep_nil (sortBy : Option String) (order : String) :
    sortStep sortBy order [] = [] :=
  List.perm_nil.mp (sortStep_perm sortBy order [])

theorem projStep_length (fields : Option String) (l : List Product) :
    (projStep fields l).length = l.length := by
  unfold projStep
  cases fields with
  | none => rfl
  | some f =>
    by_cases hf : f = "" <;> simp [hf]

theorem projStep_nil (fields : Option String) : projStep fields [] = [] := by
  unfold projStep
  cases fields with
  | none => rfl
  | some f => by_cases hf : f = "" <;> simp [hf]

theorem totalPagesOf_eq_ceilDiv (t limit : Nat) (hl : 0 < limit) :
    totalPagesOf t limit = t ⌈/⌉ limit := by
  unfold totalPagesOf
  rcases Nat.eq_zero_or_pos t with rfl | ht
  · simp [Nat.ceilDiv_eq_add_pred_div, Nat.div_eq_of_lt, Nat.sub_lt hl]
  · simp [ht, Nat.ceilDiv_eq_add_pred_div]

theorem le_totalPagesOf_mul (t limit : Nat) (hl : 0 < limit) :
    t ≤ totalPagesOf t limit * limit := by
  rw [totalPagesOf_eq_ceilDiv t limit hl]
  calc t ≤ limit • (t ⌈/⌉ limit) := le_smul_ceilDiv hl
    _ = t ⌈/⌉ limit * limit := by rw [smul_eq_mul, Nat.mul_comm]

theorem totalPagesOf_pred_mul_lt (t limit : Nat) (hl : 0 < limit) (ht : 0 < t) :
    (totalPagesOf t limit - 1) * limit < t := by
  rw [totalPagesOf_eq_ceilDiv t limit hl]
  by_contra hcon
  push_neg at hcon
  have h1 : t ⌈/⌉ limit ≤ t ⌈/⌉ limit - 1 := by
    rw [ceilDiv_le_iff_le_smul hl, smul_eq_mul, Nat.mul_comm]
    exact hcon
  have h2 : 0 < t ⌈/⌉ limit := by
    by_contra h0
    push_neg at h0
    interval_cases h : t ⌈/⌉ limit
    · have := le_totalPagesOf_mul t limit hl
      rw [totalPagesOf_eq_ceilDiv t limit hl, h] at this
      omega
  omega

theorem totalPagesOf_eq_zero_iff (t limit : Nat) (hl : 0 < limit) :
    totalPagesOf t limit = 0 ↔ t = 0 := by
  constructor
  · intro h
    have := le_totalPagesOf_mul t limit hl
    rw [h] at this
    omega
  · intro h
    simp [h, totalPagesOf]

theorem keyLe_trans : ∀ a b c : SortKey, keyLe a b → keyLe b c → keyLe a c := by
  intro a b c hab hbc
  cases a <;> cases b <;> cases c <;>
    simp_all [keyLe] <;>
    exact le_trans hab hbc

theorem keyLe_total : ∀ a b : SortKey, keyLe a b || keyLe b a := by
  intro a b
  cases a <;> cases b <;> simp [keyLe, le_total]

/-- On a list whose sort keys are numeric or missing, the mixed-type guard
of the sort stage is off and the result is the stable merge sort by key. -/
theorem sortStep_eq_mergeSort (f : String) (order : String) (l : List Product)
    (hf : f ≠ "")
    (hnum : ∀ it ∈ l, numOrMissing f it = true) :
    sortStep (some f) order l =
      l.mergeSort fun a b =>
        bif pyStrLower order == "desc" then
          keyLe (getSortKey f (pyStrLower order == "desc") b)
                (getSortKey f (pyStrLower order == "desc") a)
        else
          keyLe (getSortKey f (pyStrLower order == "desc") a)
                (getSortKey f (pyStrLower order == "desc") b) := by
  unfold sortStep
  simp only [hf, if_false]
  have hnostr : (l.map (getSortKey f (pyStrLower order == "desc"))).any SortKey.isStr = false := by
    rw [List.any_eq_false]
    intro k hk
    rw [List.mem_map] at hk
    obtain ⟨it, hit, rfl⟩ := hk
    have hmem := hnum it hit
    unfold numOrMissing at hmem
    unfold getSortKey
    cases hv : dictGet it f with
    | none => cases (pyStrLower order == "desc") <;> simp [SortKey.isStr]
    | some v =>
      rw [hv] at hmem
      cases v with
      | null => cases (pyStrLower order == "desc") <;> simp [SortKey.isStr]
      | num q => simp [SortKey.isStr]
      | bool b => simp [SortKey.isStr]
      | str s => simp at hmem
      | arr xs => simp at hmem
      | obj fs => simp at hmem
  simp [hnostr]

/-- On a list with a float-like key and a string key, the sort stage hits
`TypeError` and returns its input unchanged. -/
theorem sortStep_mixed (f : String) (order : String) (l : List Product)
    (hf : f ≠ "")
    (ha : ∃ a ∈ l, (getSortKey f (pyStrLower order == "desc") a).isNumLike)
    (hb : ∃ b ∈ l, (getSortKey f (pyStrLower order == "desc") b).isStr) :
    sortStep (some f) order l = l := by
  unfold sortStep
  simp only [hf, if_false]
  obtain ⟨a, hal, hak⟩ := ha
  obtain ⟨b, hbl, hbk⟩ := hb
  have h1 : (l.map (getSortKey f (pyStrLower order == "desc"))).any SortKey.isNumLike = true :=
    List.any_eq_true.mpr ⟨_, List.mem_map_of_mem _ hal, hak⟩
  have h2 : (l.map (getSortKey f (pyStrLower order == "desc"))).any SortKey.isStr = true :=
    List.any_eq_true.mpr ⟨_, List.mem_map_of_mem _ hbl, hbk⟩
  simp [h1, h2]

theorem char_toNat_ofNat (n : Nat) (h : n.isValidChar) : (Char.ofNat n).toNat = n := by
  unfold Char.ofNat
  rw [dif_pos h]
  unfold Char.ofNatAux Char.toNat
  simp [UInt32.toNat]

theorem toLower_toUpper_char (c : Char) : c.toUpper.toLower = c.toLower := by
  unfold Char.toUpper Char.toLower
  by_cases h : c.toNat ≥ 97 ∧ c.toNat ≤ 122
  · rw [if_pos h]
    have hv : (c.toNat - 32).isValidChar := Or.inl (by omega)
    rw [char_toNat_ofNat _ hv]
    rw [if_pos (by omega), if_neg (by omega)]
    have : c.toNat - 32 + 32 = c.toNat := by omega
    rw [this, Char.ofNat_toNat]
  · rw [if_neg h]

theorem toLower_toLower_char (c : Char) : c.toLower.toLower = c.toLower := by
  unfold Char.toLower
  by_cases h : c.toNat ≥ 65 ∧ c.toNat ≤ 90
  · rw [if_pos h]
    have hv : (c.toNat + 32).isValidChar := Or.inl (by omega)
    rw [char_toNat_ofNat _ hv, if_neg (by omega)]
  · rw [if_neg h, if_neg h]

theorem pyStrLower_pyStrUpper (s : String) :
    pyStrLower (pyStrUpper s) = pyStrLower s := by
  unfold pyStrLower pyStrUpper
  apply congrArg
  show (s.data.map Char.toUpper).map Char.toLower = _
  rw [List.map_map]
  exact List.map_congr_left fun c _ => toLower_toUpper_char c

theorem pyStrLower_pyStrLower (s : String) :
    pyStrLower (pyStrLower s) = pyStrLower s := by
  unfold pyStrLower
  apply congrArg
  show (s.data.map Char.toLower).map Char.toLower = _
  rw [List.map_map]
  exact List.map_congr_left fun c _ => toLower_toLower_char c

theorem pyStrUpper_eq_empty_iff (s : String) : pyStrUpper s = "" ↔ s = "" := by
  unfold pyStrUpper
  constructor
  · intro h
    have hd : (s.data.map Char.toUpper) = [] := congrArg String.data h
    cases hs : s.data with
    | nil => cases s; simp_all
    | cons c cs => rw [hs] at hd; cases hd
  · intro h; rw [h]; rfl

theorem pyStrLower_eq_empty_iff (s : String) : pyStrLower s = "" ↔ s = "" := by
  unfold pyStrLower
  constructor
  · intro h
    have hd : (s.data.map Char.toLower) = [] := congrArg String.data h
    cases hs : s.data with
    | nil => cases s; simp_all
    | cons c cs => rw [hs] at hd; cases hd
  · intro h; rw [h]; rfl

/-- C8: a missing, unreadable, or unparseable catalog source makes startup
fail with an escaped exception; the catalog loader only succeeds when the
source parses to a dict (so it is never silently initialised empty on a
load failure); in contrast the order loader returns the empty list on an
absent, unreadable, or unparseable order log. -/
theorem c8_load_failure_asymmetry :
    (∀ src : LoadResult,
        src = .absent ∨ src = .unreadable ∨ src = .invalid →
        ∃ e, load_products src = .error e) ∧
    (∀ (src : LoadResult) (v : JVal),
        load_products src = .ok v → ∃ fs, src = .parsed (.obj fs)) ∧
    (∀ src : LoadResult,
        src = .absent ∨ src = .unreadable ∨ src = .invalid →
        load_orders src = .ok (.arr [])) := by
  refine ⟨?_, ?_, ?_⟩
  · rintro src (rfl | rfl | rfl)
    · exact ⟨.ioError, rfl⟩
    · exact ⟨.ioError, rfl⟩
    · exact ⟨.decodeError, rfl⟩
  · intro src v h
    cases src with
    | absent => cases h
    | unreadable => cases h
    | invalid => cases h
    | parsed w =>
      cases w with
      | obj fs => exact ⟨fs, rfl⟩
      | null => cases h
      | bool b => cases h
      | num q => cases h
      | str s => cases h
      | arr xs => cases h
  · rintro src (rfl | rfl | rfl) <;> rfl

/-- Witness for C8 at concrete sources. -/
theorem c8_load_failure_asymmetry_witness :
    (∃ e, load_products .absent = .error e) ∧
    (∃ fs, LoadResult.parsed (.obj []) = LoadResult.parsed (.obj fs)) ∧
    load_orders .invalid = .ok (.arr []) :=
  ⟨c8_load_failure_asymmetry.1 .absent (Or.inl rfl),
   c8_load_failure_asymmetry.2.1 (.parsed (.obj [])) (.arr []) rfl,
   c8_load_failure_asymmetry.2.2 .invalid (Or.inr (Or.inr rfl))⟩

/-- C9: for every store, creation input (the empty item list included),
fresh id and clock reading, `create_order` returns an order carrying that
id, timestamp and the input's fields, appends exactly that order at the
end of the store, and the order then appears (last) in the per-user
listing for its user; the per-user listing of any store is exactly the
subsequence whose `userId` equals the requested user under string
equality. -/
theorem c9_create_order_then_listed (orders : List Order) (input : OrderCreate)
    (freshId : String) (now : Nat) :
    (create_order orders input freshId now).1.id = freshId ∧
    (create_order orders input freshId now).1.createdAt = now ∧
    (create_order orders input freshId now).1.userId = input.userId ∧
    (create_order orders input freshId now).1.items = input.items ∧
    (create_order orders input freshId now).2
      = orders ++ [(create_order orders input freshId now).1] ∧
    (create_order orders input freshId now).2.length = orders.length + 1 ∧
    get_orders_by_user (create_order orders input freshId now).2 input.userId
      = get_orders_by_user orders input.userId
          ++ [(create_order orders input freshId now).1] ∧
    (∀ (os : List Order) (u : String),
        (get_orders_by_user os u).Sublist os ∧
        ∀ o ∈ os, (o ∈ get_orders_by_user os u ↔ o.userId = u)) := by
  refine ⟨rfl, rfl, rfl, rfl, rfl, by simp [create_order], ?_, ?_⟩
  · unfold get_orders_by_user create_order
    rw [List.filter_append]
    simp
  · intro os u
    refine ⟨List.filter_sublist os, ?_⟩
    intro o ho
    unfold get_orders_by_user
    rw [List.mem_filter]
    simp [ho]

theorem get_products_congr (p q : QueryParams) (products : List Product)
    (hfs : filterStage p products = filterStage q products)
    (hsort : p.sortBy = q.sortBy) (horder : p.order = q.order)
    (hpage : p.page = q.page) (hlimit : p.limit = q.limit)
    (hproj : ∀ l, projStep p.fields l = projStep q.fields l) :
    get_products p products = get_products q products := by
  unfold get_products
  rw [hfs, hsort, horder, hpage, hlimit]
  cases filterStage q products with
  | none => rfl
  | some fd => simp only [hproj]

/-- C10: an empty string supplied for `category`, `brand`,
`availabilityStatus`, `search`, or `fields` is falsy in the guarding
`if`, so the request behaves exactly as if the parameter were absent. -/
theorem c10_empty_string_params_ignored (p : QueryParams) (products : List Product) :
    get_products { p with category := some ("") } products
      = get_products { p with category := none } products ∧
    get_products { p with brand := some ("") } products
      = get_products { p with brand := none } products ∧
    get_products { p with availabilityStatus := some ("") } products
      = get_products { p with availabilityStatus := none } products ∧
    get_products { p with search := some ("") } products
      = get_products { p with search := none } products ∧
    get_products { p with fields := some ("") } products
      = get_products { p with fields := none } products := by
  refine ⟨?_, ?_, ?_, ?_, ?_⟩
  · exact get_products_congr _ _ _
      (by simp [filterStage, matchFilter]) rfl rfl rfl rfl (fun l => rfl)
  · exact get_products_congr _ _ _
      (by simp [filterStage, matchFilter]) rfl rfl rfl rfl (fun l => rfl)
  · exact get_products_congr _ _ _
      (by simp [filterStage, matchFilter]) rfl rfl rfl rfl (fun l => rfl)
  · exact get_products_congr _ _ _
      (by simp [filterStage, searchFilter]) rfl rfl rfl rfl (fun l => rfl)
  · exact get_products_congr _ _ _ rfl rfl rfl rfl rfl
      (fun l => by simp [projStep])

theorem searchFilter_upper_eq_lower (s : String) (l : List Product) :
    searchFilter (some (pyStrUpper s)) l = searchFilter (some (pyStrLower s)) l := by
  show (if pyStrUpper s = "" then some l else filterOpt (searchPred (pyStrLower (pyStrUpper s))) l)
      = (if pyStrLower s = "" then some l else filterOpt (searchPred (pyStrLower (pyStrLower s))) l)
  by_cases hs : s = ""
  · rw [if_pos ((pyStrUpper_eq_empty_iff s).mpr hs),
        if_pos ((pyStrLower_eq_empty_iff s).mpr hs)]
  · rw [if_neg (fun h => hs ((pyStrUpper_eq_empty_iff s).mp h)),
        if_neg (fun h => hs ((pyStrLower_eq_empty_iff s).mp h)),
        pyStrLower_pyStrUpper, pyStrLower_pyStrLower]

/-- C6: the search stage only consumes `search.lower()`, and the ASCII
case maps satisfy `lower (upper s) = lower s`, so querying with the
uppercase form of a search string is indistinguishable from querying with
the lowercase form: the same records are selected and the whole response
is identical. -/
theorem c6_search_case_insensitive (p : QueryParams) (products : List Product)
    (s : String) :
    filterStage { p with search := some (pyStrUpper s) } products
      = filterStage { p with search := some (pyStrLower s) } products ∧
    get_products { p with search := some (pyStrUpper s) } products
      = get_products { p with search := some (pyStrLower s) } products := by
  have hfs : filterStage { p with search := some (pyStrUpper s) } products
      = filterStage { p with search := some (pyStrLower s) } products := by
    unfold filterStage
    simp only [searchFilter_upper_eq_lower]
  exact ⟨hfs, get_products_congr _ _ _ hfs rfl rfl rfl rfl (fun l => rfl)⟩

/-- C4: when the derived sort keys mix incomparable kinds (a float-like
key and a string key), `sorted` raises `TypeError`, the handler swallows
it, and the pipeline proceeds on the pre-sort ordering: the sort stage is
the identity and the whole request behaves exactly as if `sortBy` had not
been supplied.  No error reaches the caller. -/
theorem c4_sort_type_error_falls_back (p : QueryParams) (products fd : List Product)
    (f : String) (hsb : p.sortBy = some f) (hf : f ≠ "")
    (hfd : filterStage p products = some fd)
    (ha : ∃ a ∈ fd, (getSortKey f (pyStrLower p.order == "desc") a).isNumLike)
    (hb : ∃ b ∈ fd, (getSortKey f (pyStrLower p.order == "desc") b).isStr) :
    sortStep p.sortBy p.order fd = fd ∧
    get_products p products = get_products { p with sortBy := none } products := by
  have hmix : sortStep (some f) p.order fd = fd := sortStep_mixed f p.order fd hf ha hb
  have hfd2 : filterStage { p with sortBy := none } products = some fd := hfd
  have hnone : sortStep none p.order fd = fd := rfl
  constructor
  · rw [hsb]; exact hmix
  · unfold get_products
    simp only [hfd, hfd2, hsb, hmix, hnone]

theorem filterStage_category_only (c : String) (products : List Product) :
    filterStage { category := some c } products
      = matchFilter (some c) ("category") products := by
  simp [filterStage, matchFilter, numFilter, searchFilter]

theorem filterStage_minPrice_only (m : Rat) (products : List Product) :
    filterStage { minPrice := some m } products
      = filterOpt (fun it => pyGeNum (dictGetD it ("price") (.num 0)) m) products := by
  simp [filterStage, matchFilter, numFilter, searchFilter]

theorem filterStage_cat_minPrice (c : String) (m : Rat) (products : List Product) :
    filterStage { category := some c, minPrice := some m } products
      = (matchFilter (some c) ("category") products).bind
          (filterOpt (fun it => pyGeNum (dictGetD it ("price") (.num 0)) m)) := by
  simp [filterStage, matchFilter, numFilter, searchFilter]

/-- C5: filtering is conjunctive.  Whenever the category-only query and
the minPrice-only query both evaluate without error, the combined query
evaluates without error and selects exactly the records selected by both
single-parameter queries. -/
theorem c5_conjunctive_filters (products lC lM : List Product) (c : String) (m : Rat)
    (hC : filterStage { category := some c } products = some lC)
    (hM : filterStage { minPrice := some m } products = some lM) :
    ∃ lB, filterStage { category := some c, minPrice := some m } products = some lB ∧
      ∀ x : Product, x ∈ lB ↔ (x ∈ lC ∧ x ∈ lM) := by
  rw [filterStage_category_only] at hC
  rw [filterStage_minPrice_only] at hM
  have hMeq := filterOpt_some_inv hM
  have hMsome := filterOpt_isSome_of_eq_some hM
  by_cases hc : c = ""
  · subst hc
    have hskip : matchFilter (some "") ("category") products = some products := by
      simp [matchFilter]
    rw [hskip] at hC
    have hlC : products = lC := Option.some_inj.mp hC
    subst hlC
    refine ⟨lM, ?_, ?_⟩
    · rw [filterStage_cat_minPrice, hskip]
      exact hM
    · intro x
      constructor
      · intro hx
        refine ⟨?_, hx⟩
        rw [hMeq] at hx
        exact List.mem_of_mem_filter hx
      · exact fun hx => hx.2
  · have hCf : filterOpt (fun it => matchesQ (dictGet it ("category")) c) products
        = some lC := by
      simp only [matchFilter] at hC
      rw [if_neg hc] at hC
      exact hC
    have hCeq := filterOpt_some_inv hCf
    have hCsome := filterOpt_isSome_of_eq_some hCf
    refine ⟨lC.filter (fun x => pyGeNum (dictGetD x ("price") (.num 0)) m == some true),
      ?_, ?_⟩
    · rw [filterStage_cat_minPrice]
      simp only [matchFilter]
      rw [if_neg hc, hCf]
      exact filterOpt_eq_some _ lC fun x hx => by
        rw [hCeq] at hx
        exact hMsome x (List.mem_of_mem_filter hx)
    · intro x
      rw [hMeq, hCeq]
      simp only [List.mem_filter]
      constructor
      · rintro ⟨⟨hxp, hpc⟩, hpm⟩
        exact ⟨⟨hxp, hpc⟩, hxp, hpm⟩
      · rintro ⟨⟨hxp, hpc⟩, _, hpm⟩
        exact ⟨⟨hxp, hpc⟩, hpm⟩

theorem filterStage_maxPrice_only (m : Rat) (products : List Product) :
    filterStage { maxPrice := some m } products
      = filterOpt (fun it => pyLeNum (dictGetD it ("price") (.num 0)) m) products := by
  simp [filterStage, matchFilter, numFilter, searchFilter]

theorem filterStage_minRating_only (m : Rat) (products : List Product) :
    filterStage { minRating := some m } products
      = filterOpt (fun it => pyGeNum (dictGetD it ("rating") (.num 0)) m) products := by
  simp [filterStage, matchFilter, numFilter, searchFilter]

theorem pyGeNum_numField (f : String) (x : Product) (m : Rat)
    (h : (numFieldVal f x).isSome) :
    pyGeNum (dictGetD x f (.num 0)) m
      = some (decide (m ≤ (numFieldVal f x).getD 0)) := by
  unfold numFieldVal at h
  unfold numFieldVal dictGetD
  cases hv : dictGet x f with
  | none => simp [hv, pyGeNum]
  | some v =>
    rw [hv] at h
    cases v with
    | num q => simp [hv, pyGeNum]
    | bool b => cases b <;> simp [hv, pyGeNum]
    | null => simp at h
    | str s => simp at h
    | arr xs => simp at h
    | obj fs => simp at h

theorem pyLeNum_numField (f : String) (x : Product) (m : Rat)
    (h : (numFieldVal f x).isSome) :
    pyLeNum (dictGetD x f (.num 0)) m
      = some (decide ((numFieldVal f x).getD 0 ≤ m)) := by
  unfold numFieldVal at h
  unfold numFieldVal dictGetD
  cases hv : dictGet x f with
  | none => simp [hv, pyLeNum]
  | some v =>
    rw [hv] at h
    cases v with
    | num q => simp [hv, pyLeNum]
    | bool b => cases b <;> simp [hv, pyLeNum]
    | null => simp at h
    | str s => simp at h
    | arr xs => simp at h
    | obj fs => simp at h

/-- C7: on a catalog whose `price` and `rating` values are numeric where
present, `minPrice`/`maxPrice` select exactly the records whose price
(read as `0` when the key is absent) is `≥ m` / `≤ m`, and `minRating`
selects exactly the records whose rating (read as `0` when absent) is
`≥ m` - all bounds inclusive. -/
theorem c7_range_filters_inclusive_default_zero (products : List Product) (m : Rat)
    (hp : ∀ it ∈ products, (numFieldVal ("price") it).isSome)
    (hr : ∀ it ∈ products, (numFieldVal ("rating") it).isSome) :
    filterStage { minPrice := some m } products
      = some (products.filter fun it => decide (m ≤ (numFieldVal ("price") it).getD 0)) ∧
    filterStage { maxPrice := some m } products
      = some (products.filter fun it => decide ((numFieldVal ("price") it).getD 0 ≤ m)) ∧
    filterStage { minRating := some m } products
      = some (products.filter fun it => decide (m ≤ (numFieldVal ("rating") it).getD 0)) := by
  refine ⟨?_, ?_, ?_⟩
  · rw [filterStage_minPrice_only]
    rw [filterOpt_eq_some _ products
      (fun x hx => by rw [pyGeNum_numField _ _ _ (hp x hx)]; rfl)]
    exact congrArg some (List.filter_congr fun x hx => by
      rw [pyGeNum_numField _ _ _ (hp x hx)]
      simp)
  · rw [filterStage_maxPrice_only]
    rw [filterOpt_eq_some _ products
      (fun x hx => by rw [pyLeNum_numField _ _ _ (hp x hx)]; rfl)]
    exact congrArg some (List.filter_congr fun x hx => by
      rw [pyLeNum_numField _ _ _ (hp x hx)]
      simp)
  · rw [filterStage_minRating_only]
    rw [filterOpt_eq_some _ products
      (fun x hx => by rw [pyGeNum_numField _ _ _ (hr x hx)]; rfl)]
    exact congrArg some (List.filter_congr fun x hx => by
      rw [pyGeNum_numField _ _ _ (hr x hx)]
      simp)

/-- C1: with the filters evaluating cleanly, a requested page strictly
beyond a positive `totalPages` makes `get_products` raise the explicit 404
with the documented message, and no page is returned; while page 1 on an
empty filtered result (`totalPages = 0`) returns a normal response whose
`data` is the empty list. -/
theorem c1_page_overflow_404_empty_ok (p : QueryParams) (products fd : List Product)
    (hfd : filterStage p products = some fd)
    (hlim : 1 ≤ p.limit) :
    (0 < totalPagesOf fd.length p.limit →
      totalPagesOf fd.length p.limit < p.page →
      get_products p products = .error (.http404
        ((("Page ") ++ toString p.page) ++ (" not found. Total pages: ")
          ++ toString (totalPagesOf fd.length p.limit)))) ∧
    (totalPagesOf fd.length p.limit = 0 → p.page = 1 →
      ∃ resp, get_products p products = .ok resp ∧ resp.data = []) := by
  have hslen : (sortStep p.sortBy p.order fd).length = fd.length :=
    sortStep_length _ _ _
  constructor
  · intro htp hpage
    unfold get_products
    simp only [hfd]
    rw [hslen]
    have hdrop : (sortStep p.sortBy p.order fd).drop ((p.page - 1) * p.limit) = [] := by
      apply List.drop_eq_nil_of_le
      rw [hslen]
      calc fd.length ≤ totalPagesOf fd.length p.limit * p.limit :=
            le_totalPagesOf_mul _ _ (by omega)
        _ ≤ (p.page - 1) * p.limit := Nat.mul_le_mul_right _ (by omega)
    rw [hdrop, List.take_nil, projStep_nil]
    rw [if_pos ⟨rfl, hpage, htp⟩]
  · intro htp hpage
    have ht : fd.length = 0 :=
      (totalPagesOf_eq_zero_iff _ _ (by omega)).mp htp
    have hfdnil : fd = [] := List.length_eq_zero.mp ht
    subst hfdnil
    unfold get_products
    simp only [hfd]
    rw [sortStep_nil, List.drop_nil, List.take_nil, projStep_nil]
    rw [if_neg (fun hcond => by
      have h0 := hcond.2.2
      simp [totalPagesOf] at h0)]
    exact ⟨_, rfl, rfl⟩

/-- C2: whenever `get_products` returns a page, the page holds at most
`limit` records, `totalItems` is the filtered count before pagination,
`totalPages` is the ceiling of `totalItems / limit` (`0` on an empty
result, and characterised as the least page count covering all items),
and - absent field projection - `data` is exactly the slice
`[(page-1)*limit, (page-1)*limit + limit)` of the filtered-and-sorted
records, clipped to the available data. -/
theorem c2_pagination_shape (p : QueryParams) (products fd : List Product)
    (resp : ProductsResponse)
    (hfd : filterStage p products = some fd)
    (hpage : 1 ≤ p.page) (hlim : 1 ≤ p.limit) (hlim100 : p.limit ≤ 100)
    (hok : get_products p products = .ok resp) :
    resp.data.length ≤ p.limit ∧
    resp.totalItems = fd.length ∧
    resp.totalPages = totalPagesOf fd.length p.limit ∧
    (fd.length ≤ resp.totalPages * p.limit ∧
      (0 < fd.length → (resp.totalPages - 1) * p.limit < fd.length)) ∧
    resp.data = projStep p.fields
      (((sortStep p.sortBy p.order fd).drop ((p.page - 1) * p.limit)).take p.limit) ∧
    (p.fields = none →
      resp.data
        = ((sortStep p.sortBy p.order fd).drop ((p.page - 1) * p.limit)).take p.limit) := by
  have hslen : (sortStep p.sortBy p.order fd).length = fd.length :=
    sortStep_length _ _ _
  unfold get_products at hok
  simp only [hfd] at hok
  split at hok
  · cases hok
  · cases hok
    refine ⟨?_, hslen, by rw [hslen], ?_, rfl, ?_⟩
    · rw [projStep_length]
      exact le_trans (List.length_take_le _ _) le_rfl
    · rw [hslen]
      exact ⟨le_totalPagesOf_mul _ _ (by omega),
        fun ht => totalPagesOf_pred_mul_lt _ _ (by omega) ht⟩
    · intro hfields
      rw [hfields]
      rfl

theorem getSortKey_of_missing (f : String) (r : Bool) (x : Product)
    (hx : sortFieldNum f x = none) (hnm : numOrMissing f x = true) :
    getSortKey f r x = bif r then .negInf else .posInf := by
  unfold sortFieldNum at hx
  unfold numOrMissing at hnm
  unfold getSortKey
  cases hv : dictGet x f with
  | none => rfl
  | some v => rw [hv] at hx hnm; cases v <;> simp_all

theorem getSortKey_of_some (f : String) (r : Bool) (x : Product) (q : Rat)
    (hx : sortFieldNum f x = some q) : getSortKey f r x = .num q := by
  unfold sortFieldNum at hx
  unfold getSortKey
  cases hv : dictGet x f with
  | none => rw [hv] at hx; cases hx
  | some v => rw [hv] at hx; cases v <;> simp_all

theorem keyLe_desc_val (f : String) (a b : Product)
    (h : keyLe (getSortKey f true b) (getSortKey f true a) = true) :
    ∀ qa qb, sortFieldNum f a = some qa → sortFieldNum f b = some qb → qb ≤ qa := by
  intro qa qb hqa hqb
  rw [getSortKey_of_some f true a qa hqa, getSortKey_of_some f true b qb hqb] at h
  simpa [keyLe] using h

theorem keyLe_missing_last (f : String) (order : String) (a b : Product)
    (ha : numOrMissing f a = true) (hb : numOrMissing f b = true)
    (h : (bif pyStrLower order == "desc" then
            keyLe (getSortKey f (pyStrLower order == "desc") b)
                  (getSortKey f (pyStrLower order == "desc") a)
          else
            keyLe (getSortKey f (pyStrLower order == "desc") a)
                  (getSortKey f (pyStrLower order == "desc") b)) = true)
    (hma : sortFieldNum f a = none) : sortFieldNum f b = none := by
  have hka := getSortKey_of_missing f (pyStrLower order == "desc") a hma ha
  cases hmb : sortFieldNum f b with
  | none => rfl
  | some qb =>
    exfalso
    have hkb := getSortKey_of_some f (pyStrLower order == "desc") b qb hmb
    rw [hka, hkb] at h
    cases hr : (pyStrLower order == "desc") <;> rw [hr] at h <;> simp [keyLe] at h

theorem bifKeyLe_trans (k : Product → SortKey) (r : Bool) :
    ∀ a b c : Product,
      (bif r then keyLe (k b) (k a) else keyLe (k a) (k b)) = true →
      (bif r then keyLe (k c) (k b) else keyLe (k b) (k c)) = true →
      (bif r then keyLe (k c) (k a) else keyLe (k a) (k c)) = true := by
  intro a b c hab hbc
  cases r <;> simp only [cond_false, cond_true] at hab hbc ⊢
  · exact keyLe_trans _ _ _ hab hbc
  · exact keyLe_trans _ _ _ hbc hab

theorem bifKeyLe_total (k : Product → SortKey) (r : Bool) :
    ∀ a b : Product,
      ((bif r then keyLe (k b) (k a) else keyLe (k a) (k b)) ||
       (bif r then keyLe (k a) (k b) else keyLe (k b) (k a))) = true := by
  intro a b
  cases r <;> simp only [cond_false, cond_true]
  · exact keyLe_total _ _
  · exact keyLe_total _ _

/-- C3: on records whose sort-field values are numeric where present,
sorting descending yields pairwise non-increasing field values, and - for
any direction string - every record missing the field comes after all
records that have it (once a missing-field record appears, every later
record also misses the field). -/
theorem c3_numeric_sort_desc_missing_last (f : String) (order : String)
    (l : List Product) (hf : f ≠ "")
    (hnum : ∀ it ∈ l, numOrMissing f it = true) :
    (sortStep (some f) ("desc") l).Pairwise
      (fun a b => ∀ qa qb,
        sortFieldNum f a = some qa → sortFieldNum f b = some qb → qb ≤ qa) ∧
    (sortStep (some f) order l).Pairwise
      (fun a b => sortFieldNum f a = none → sortFieldNum f b = none) := by
  constructor
  · rw [sortStep_eq_mergeSort f ("desc") l hf hnum]
    have hrev : (pyStrLower ("desc") == "desc") = true := by decide
    simp only [hrev, cond_true]
    have hsorted :
        (l.mergeSort fun a b =>
            keyLe (getSortKey f true b) (getSortKey f true a)).Pairwise
          (fun a b => keyLe (getSortKey f true b) (getSortKey f true a) = true) :=
      @List.sorted_mergeSort _
        (fun a b => keyLe (getSortKey f true b) (getSortKey f true a))
        (fun a b c hab hbc => keyLe_trans _ _ _ hbc hab)
        (fun a b => keyLe_total _ _) l
    exact hsorted.imp fun hab => keyLe_desc_val f _ _ hab
  · rw [sortStep_eq_mergeSort f order l hf hnum]
    have hsorted :
        (l.mergeSort fun a b =>
            bif pyStrLower order == "desc" then
              keyLe (getSortKey f (pyStrLower order == "desc") b)
                    (getSortKey f (pyStrLower order == "desc") a)
            else
              keyLe (getSortKey f (pyStrLower order == "desc") a)
                    (getSortKey f (pyStrLower order == "desc") b)).Pairwise
          (fun a b =>
            (bif pyStrLower order == "desc" then
              keyLe (getSortKey f (pyStrLower order == "desc") b)
                    (getSortKey f (pyStrLower order == "desc") a)
            else
              keyLe (getSortKey f (pyStrLower order == "desc") a)
                    (getSortKey f (pyStrLower order == "desc") b)) = true) :=
      List.sorted_mergeSort
        (bifKeyLe_trans (getSortKey f (pyStrLower order == "desc"))
          (pyStrLower order == "desc"))
        (bifKeyLe_total (getSortKey f (pyStrLower order == "desc"))
          (pyStrLower order == "desc")) l
    refine List.Pairwise.imp_of_mem ?_ hsorted
    intro a b ha hb hab hma
    exact keyLe_missing_last f order a b
      (hnum a (List.mem_mergeSort.mp ha))
      (hnum b (List.mem_mergeSort.mp hb)) hab hma

/-- Concrete sample records used by the witnesses below. -/
def itemBeauty : Product := [(("category"), JVal.str ("Beauty")), (("price"), JVal.num 10)]

def itemToys : Product := [(("category"), JVal.str ("Toys")), (("price"), JVal.num 3)]

def itemNoPrice : Product := [(("category"), JVal.str ("Misc"))]

def itemStrPrice : Product := [(("price"), JVal.str ("cheap"))]

def itemRated : Product := [(("price"), JVal.num 10), (("rating"), JVal.num 4)]

/-- Witness for C1 at a concrete catalog: page 5 of a one-item catalog
404s; page 1 of an empty catalog returns empty data. -/
theorem c1_page_overflow_404_empty_ok_witness :
    (∃ msg, get_products { page := 5, limit := 1 } [itemBeauty]
        = .error (.http404 msg)) ∧
    (∃ resp, get_products { page := 1, limit := 1 } ([] : List Product)
        = .ok resp ∧ resp.data = []) :=
  ⟨⟨_, (c1_page_overflow_404_empty_ok { page := 5, limit := 1 } [itemBeauty]
        [itemBeauty] rfl (by decide)).1 (by decide) (by decide)⟩,
   (c1_page_overflow_404_empty_ok { page := 1, limit := 1 } [] [] rfl
        (by decide)).2 (by decide) rfl⟩

/-- Witness for C2 at a concrete catalog and response. -/
theorem c2_pagination_shape_witness :
    (ProductsResponse.mk 1 2 2 1 [itemBeauty, itemToys]).totalItems
      = List.length [itemBeauty, itemToys] :=
  (c2_pagination_shape { page := 1, limit := 2 } [itemBeauty, itemToys]
    [itemBeauty, itemToys] (ProductsResponse.mk 1 2 2 1 [itemBeauty, itemToys])
    rfl (by decide) (by decide) (by decide) rfl).2.1

/-- Witness for C3 at a concrete list with a missing-price record. -/
theorem c3_numeric_sort_desc_missing_last_witness :
    (sortStep (some ("price")) ("desc") [itemNoPrice, itemBeauty, itemToys]).Pairwise
      (fun a b => ∀ qa qb,
        sortFieldNum ("price") a = some qa → sortFieldNum ("price") b = some qb →
        qb ≤ qa) :=
  (c3_numeric_sort_desc_missing_last ("price") ("asc")
    [itemNoPrice, itemBeauty, itemToys] (by decide) (by decide)).1

/-- Witness for C4 at a catalog mixing a numeric and a string price. -/
theorem c4_sort_type_error_falls_back_witness :
    get_products { sortBy := some ("price") } [itemBeauty, itemStrPrice]
      = get_products ({} : QueryParams) [itemBeauty, itemStrPrice] :=
  (c4_sort_type_error_falls_back { sortBy := some ("price") }
    [itemBeauty, itemStrPrice] [itemBeauty, itemStrPrice] ("price") rfl
    (by decide) rfl (by decide) (by decide)).2

/-- Witness for C5 at a concrete two-record catalog. -/
theorem c5_conjunctive_filters_witness :
    ∃ lB, filterStage { category := some ("Beauty"), minPrice := some 5 }
        [itemBeauty, itemToys] = some lB ∧
      ∀ x : Product, x ∈ lB ↔ (x ∈ [itemBeauty] ∧ x ∈ [itemBeauty]) :=
  c5_conjunctive_filters [itemBeauty, itemToys] [itemBeauty] [itemBeauty]
    ("Beauty") 5 rfl rfl

/-- Witness for C7 at a concrete catalog with a missing-price record. -/
theorem c7_range_filters_inclusive_default_zero_witness :
    filterStage { minPrice := some 5 } [itemRated, itemNoPrice]
      = some ([itemRated, itemNoPrice].filter fun it =>
          decide (5 ≤ (numFieldVal ("price") it).getD 0)) :=
  (c7_range_filters_inclusive_default_zero [itemRated, itemNoPrice] 5
    (by decide) (by decide)).1

/-- Witness for C9 at a concrete creation. -/
theorem c9_create_order_then_listed_witness :
    (create_order [] { userId := ("u1") } ("oid-1") 7).1.id = "oid-1" :=
  (c9_create_order_then_listed [] { userId := ("u1") } ("oid-1") 7).1

end ApiExposer
